import Mathlib

/-!
Verification of the multi-provider streaming orchestration core of the QYNTRA
repository: API key rotation with cooldown and failure tracking
(`apiKeyRotation`), the per-provider adapters' payload construction
(`geminiService`, `groqService`, `openRouterService`), the bounded
retry-with-key-rotation loop shared by the adapters, and the
provider-fallback orchestrator (`AIProviderFactory`).

The TypeScript source is embedded shallowly: JavaScript timestamps
(`Date.now()` values) become an explicit `now : Nat` argument threaded into
every state-mutating call; the mutable class instance becomes an explicit
state value; JavaScript truthiness tests on optionals are modelled by
dedicated helpers.
-/

/-! ## Key rotation (`services/apiKeyRotation.ts`, class `ApiKeyRotation`) -/

/-- Per-key health record, from `interface KeyStatus`. `failedAt` is the
`Date.now()` timestamp of the last failure (absent when never failed or
after a reset). -/
structure KeyStatus where
  index : Nat
  failedAt : Option Nat
  failureCount : Nat
deriving Repr, DecidableEq

instance : Inhabited KeyStatus := ⟨⟨0, none, 0⟩⟩

/-- State of one `ApiKeyRotation` instance: the fixed key list, the
round-robin cursor and the per-index status map (the source's
`Map<number, KeyStatus>`, total on `0 .. keys.length - 1`, embedded as a
list indexed by position). -/
structure ApiKeyRotation where
  keys : List String
  currentIndex : Nat
  statuses : List KeyStatus
deriving Repr, DecidableEq

namespace ApiKeyRotation

/-- Constant `COOLDOWN_MS = 60000`: one minute cooldown for failed keys. -/
def COOLDOWN_MS : Nat := 60000

/-- Constant `MAX_FAILURES = 3`. -/
def MAX_FAILURES : Nat := 3

/-- JavaScript truthiness of the optional numeric field `status.failedAt`:
`undefined` and `0` are falsy, every other timestamp is truthy. -/
def truthyTime : Option Nat → Bool
  | none => false
  | some t => t != 0

/-- Constructor, string branch: split on commas, trim, drop empties. -/
def parseKeys (apiKeys : String) : List String :=
  ((apiKeys.splitOn ",").map String.trim).filter (fun k => k.length > 0)

/-- Constructor: initial statuses, one clean record per key index. -/
def initStatuses (keys : List String) : List KeyStatus :=
  (List.range keys.length).map (fun i => { index := i, failedAt := none, failureCount := 0 })

/-- Constructor from an already-split key list: an empty pool is replaced
by the single placeholder key, then statuses are initialised and the
cursor starts at 0. -/
def mkOfList (apiKeys : List String) : ApiKeyRotation :=
  let keys := if apiKeys.isEmpty then ["NO_API_KEY_PROVIDED"] else apiKeys
  { keys := keys, currentIndex := 0, statuses := initStatuses keys }

/-- Constructor from a comma-separated credential string. -/
def mkOfString (apiKeys : String) : ApiKeyRotation :=
  mkOfList (parseKeys apiKeys)

/-- Operation `resetKey(index)`: clear `failedAt` and `failureCount` for that slot;
a missing slot is a no-op (the source guards with `if (status)`). -/
def resetKey (st : ApiKeyRotation) (index : Nat) : ApiKeyRotation :=
  match st.statuses.get? index with
  | none => st
  | some status =>
      { st with statuses :=
          st.statuses.set index { status with failedAt := none, failureCount := 0 } }

/-- Operation `markKeyFailed(key)` at clock value `now`: look up the key's first
index (`indexOf`; unknown keys are a no-op), bump its `failureCount`,
stamp `failedAt = now`, and if the cursor points at it advance the
cursor. -/
def markKeyFailed (st : ApiKeyRotation) (key : String) (now : Nat) : ApiKeyRotation :=
  match st.keys.findIdx? (fun k => k == key) with
  | none => st
  | some index =>
      let status := st.statuses.getD index default
      let status' := { status with failureCount := status.failureCount + 1, failedAt := some now }
      let st' := { st with statuses := st.statuses.set index status' }
      if st'.currentIndex = index then
        { st' with currentIndex := (st'.currentIndex + 1) % st'.keys.length }
      else st'

/-- The `while (attempts < this.keys.length)` scan of `getNextKey`, with
the remaining attempt budget as fuel. A key in cooldown is skipped; an
expired cooldown resets the slot in place (the source's `resetKey` call
mutates the very record the loop then re-reads, so the quarantine test
that follows sees the reset `failureCount`); a quarantined key
(`failureCount >= MAX_FAILURES`) is skipped; otherwise the key is
selected and the cursor advances past it. Fuel 0 is the loop exit:
return the key at the original starting index as a last resort. -/
def getNextKeyLoop (now startIndex : Nat) : Nat → ApiKeyRotation → String × ApiKeyRotation
  | 0, st => (st.keys.getD startIndex "", st)
  | fuel + 1, st =>
      let n := st.keys.length
      let i := st.currentIndex
      let status := st.statuses.getD i default
      if truthyTime status.failedAt then
        if (now : Int) - (status.failedAt.getD 0 : Int) < (COOLDOWN_MS : Int) then
          getNextKeyLoop now startIndex fuel { st with currentIndex := (i + 1) % n }
        else
          let st2 := st.resetKey i
          let status2 := st2.statuses.getD i default
          if MAX_FAILURES ≤ status2.failureCount then
            getNextKeyLoop now startIndex fuel { st2 with currentIndex := (i + 1) % n }
          else
            (st2.keys.getD i "", { st2 with currentIndex := (i + 1) % n })
      else
        if MAX_FAILURES ≤ status.failureCount then
          getNextKeyLoop now startIndex fuel { st with currentIndex := (i + 1) % n }
        else
          (st.keys.getD i "", { st with currentIndex := (i + 1) % n })

/-- Operation `getNextKey()` at clock value `now`: scan at most `keys.length`
candidates starting from the current cursor. -/
def getNextKey (st : ApiKeyRotation) (now : Nat) : String × ApiKeyRotation :=
  getNextKeyLoop now st.currentIndex st.keys.length st

/-- Iterate `getNextKey` once per clock value in `times`, collecting the
returned keys in order. -/
def runGetNextKeys : List Nat → ApiKeyRotation → List String
  | [], _ => []
  | now :: rest, st =>
      let r := st.getNextKey now
      r.1 :: runGetNextKeys rest r.2

end ApiKeyRotation

/-! ## Shared chat types (modelled from their usage sites: `types.ts` is
imported as `../types` by every service but the interfaces are fully
determined by how the services read them). -/

/-- Conversation roles: the closed set `{user, model}`. -/
inductive Role
  | user
  | model
deriving Repr, DecidableEq

/-- Binary attachment carried by a message: mime type plus base64 payload. -/
structure Attachment where
  mimeType : String
  data : String
deriving Repr, DecidableEq

/-- One conversation turn. -/
structure Message where
  role : Role
  content : String
  attachment : Option Attachment
deriving Repr, DecidableEq

/-- Provider identifiers registered in `AIProviderFactory.providers`. -/
inductive AIProvider
  | GEMINI
  | GROQ
deriving Repr, DecidableEq

/-- Generation configuration, with the fields the services and the factory
read. Numeric sampling settings are pass-through values the core never
computes on. `systemInstruction` is a JavaScript string whose falsy value
(absent or empty) triggers the per-adapter default; the empty string
stands for both. -/
structure ModelConfig where
  provider : Option AIProvider
  model : String
  temperature : Int
  topK : Int
  topP : Int
  thinkingBudget : Nat
  useSearch : Bool
  systemInstruction : String
deriving Repr, DecidableEq

/-- JavaScript `s || dflt` on strings: the empty string is falsy. -/
def orDefault (s dflt : String) : String :=
  if s.isEmpty then dflt else s

/-! ## Gemini adapter payload construction (`services/geminiService.ts`) -/

/-- One element of a Gemini `parts` array: a text part or an inline-data
multimodal part. -/
inductive GeminiPart
  | text (s : String)
  | inlineData (mimeType data : String)
deriving Repr, DecidableEq

/-- The `parts` array both `initChat` and `streamMessage` build for a
message: `[{ text: msg.content }]`, then the attachment pushed as an
`inlineData` part when present. -/
def geminiMsgParts (msg : Message) : List GeminiPart :=
  [GeminiPart.text msg.content] ++
    (match msg.attachment with
     | some a => [GeminiPart.inlineData a.mimeType a.data]
     | none => [])

/-- A transformed history entry passed to `ai.chats.create`. -/
structure GeminiContent where
  role : Role
  parts : List GeminiPart
deriving Repr, DecidableEq

/-- The `validHistory` built by `initChat`: `history.slice(0, -1)` mapped to API
shape — the last history entry is filtered out because
`sendMessageStream` appends the current message itself. -/
def geminiValidHistory (history : List Message) : List GeminiContent :=
  history.dropLast.map (fun msg => { role := msg.role, parts := geminiMsgParts msg })

/-- Reading `parts[0].text` on a parts array (`undefined` on an inline-data part,
modelled as the empty string; the source only reads it from a singleton
`[{ text: ... }]` array). -/
def GeminiPart.textD : GeminiPart → String
  | .text s => s
  | .inlineData _ _ => ""

/-- The `message` argument of `sendMessageStream`: a bare string when the
parts array is a singleton, the whole parts array otherwise. -/
inductive GeminiMessagePayload
  | textOnly (s : String)
  | multiPart (ps : List GeminiPart)
deriving Repr, DecidableEq

/-- The value `messagePayload = parts.length === 1 ? parts[0].text : parts` built
from `lastMessage` in `GeminiService.streamMessage`. -/
def geminiMessagePayload (lastMessage : Message) : GeminiMessagePayload :=
  let parts := geminiMsgParts lastMessage
  if parts.length = 1 then .textOnly (parts.getD 0 (.text "")).textD
  else .multiPart parts

/-! ## Groq and OpenRouter adapter payload construction
(`services/groqService.ts`, `services/openRouterService.ts`) -/

/-- One OpenAI-style chat message `{ role, content }`. -/
structure ChatCompletionMessage where
  role : String
  content : String
deriving Repr, DecidableEq

/-- Transcript built by `GroqService.streamMessage`: `history.slice(0, -1)` mapped to
`{role, content}` with `model → assistant`, then the current message
pushed as a `user` turn. Attachments are not read anywhere in this
construction. -/
def groqMessages (lastMessage : Message) (history : List Message) : List ChatCompletionMessage :=
  (history.dropLast.map (fun msg =>
    { role := if msg.role = Role.model then "assistant" else "user", content := msg.content }))
  ++ [{ role := "user", content := lastMessage.content }]

/-- The full `messages` array sent by Groq: the system message followed by
the transcript. -/
def groqWireMessages (lastMessage : Message) (history : List Message) (config : ModelConfig) :
    List ChatCompletionMessage :=
  { role := "system",
    content := orDefault config.systemInstruction "You are a helpful AI assistant." }
  :: groqMessages lastMessage history

/-- Transcript built by `OpenRouterService.streamMessage`: same transcript construction as the
Groq service (the source duplicates the code); attachments are not read. -/
def openRouterMessages (lastMessage : Message) (history : List Message) :
    List ChatCompletionMessage :=
  (history.dropLast.map (fun msg =>
    { role := if msg.role = Role.model then "assistant" else "user", content := msg.content }))
  ++ [{ role := "user", content := lastMessage.content }]

/-- The full `messages` array sent by OpenRouter. -/
def openRouterWireMessages (lastMessage : Message) (history : List Message)
    (config : ModelConfig) : List ChatCompletionMessage :=
  { role := "system",
    content := orDefault config.systemInstruction "You are a helpful AI assistant." }
  :: openRouterMessages lastMessage history

/-! ## Retry-with-key-rotation loop (identical in the three services) -/

/-- Substring containment on strings (`String.prototype.includes`). -/
def strIncludes (s pat : String) : Bool :=
  (List.range (s.data.length + 1)).any (fun i => pat.data.isPrefixOf (s.data.drop i))

/-- The rate-limit classifier shared by the services: the error message
contains one of the four quota signatures. -/
def isRateLimitError (msg : String) : Bool :=
  strIncludes msg "429" || strIncludes msg "quota" ||
  strIncludes msg "rate limit" || strIncludes msg "RESOURCE_EXHAUSTED"

/-- Constant `MAX_RETRIES = 3` in every service's `streamMessage`. -/
def MAX_RETRIES : Nat := 3

/-- Terminal outcome of one `streamMessage` call, generic in the chunk
type: normal completion with the yielded chunks, the re-thrown
`Error(errorMessage)` from the catch branch, or the
`"Failed to generate response after maximum retries"` error thrown after
the loop exits. -/
inductive RetryResult (α : Type) where
  | success (chunks : List α)
  | propagated (msg : String)
  | exhaustedRetries
deriving Repr, DecidableEq

/-- The `while (retryCount < MAX_RETRIES)` loop of `streamMessage`, with
the remaining iteration budget as fuel (kept equal to
`MAX_RETRIES - retryCount` by the caller). `attempt k` abstracts the
`k`-th invocation of the underlying streaming call — payload build, SDK
call and chunk consumption — as either the list of chunks of a completed
stream or the thrown error's message. A rate-limit-classified error with
`retryCount < MAX_RETRIES - 1` marks the key failed, rotates (state not
needed for the control flow modelled here), increments `retryCount` and
continues; any other failure is re-thrown at once. The second component
counts the invocations made. -/
def streamRetryLoop (attempt : Nat → Except String (List α)) :
    Nat → Nat → RetryResult α × Nat
  | retryCount, 0 => (.exhaustedRetries, retryCount)
  | retryCount, fuel + 1 =>
      match attempt retryCount with
      | .ok chunks => (.success chunks, retryCount + 1)
      | .error msg =>
          if isRateLimitError msg ∧ retryCount < MAX_RETRIES - 1 then
            streamRetryLoop attempt (retryCount + 1) fuel
          else
            (.propagated msg, retryCount + 1)

/-- A whole `streamMessage` call: run the retry loop from `retryCount = 0`. -/
def streamMessageRetry (attempt : Nat → Except String (List α)) : RetryResult α × Nat :=
  streamRetryLoop attempt 0 MAX_RETRIES

/-! ## Provider fallback orchestrator (`AIProviderFactory`) -/

/-- Structured citation metadata attached to chunks by providers that
support grounding; opaque to the orchestration core. -/
structure GroundingMetadata where
  sources : List (String × String)
deriving Repr, DecidableEq

/-- A normalized streamed output chunk as yielded by an adapter. -/
structure StreamChunk where
  text : String
  grounding : Option GroundingMetadata
deriving Repr, DecidableEq

/-- A chunk after the factory's `{ ...chunk, provider }` spread. -/
structure TaggedChunk where
  chunk : StreamChunk
  provider : Option AIProvider
deriving Repr, DecidableEq

/-- Observable behaviour of one adapter `streamMessage` generator run: the
chunks it yielded, then either normal termination (`error = none`) or a
raised error. -/
structure ProviderOutcome where
  yielded : List StreamChunk
  error : Option String
deriving Repr, DecidableEq

/-- Truthiness of the provider's environment credential, per
`isProviderAvailable` (`!!process.env....`). -/
structure Env where
  geminiApiKey : Bool
  groqApiKey : Bool
deriving Repr, DecidableEq

/-- Predicate `AIProviderFactory.isProviderAvailable`. -/
def isProviderAvailable (env : Env) : AIProvider → Bool
  | .GEMINI => env.geminiApiKey
  | .GROQ => env.groqApiKey

/-- The fixed preference order `[AIProvider.GEMINI, AIProvider.GROQ]`. -/
def providerOrder : List AIProvider := [.GEMINI, .GROQ]

/-- The list `AIProviderFactory.getAvailableProviders` computes. -/
def getAvailableProviders (env : Env) : List AIProvider :=
  providerOrder.filter (isProviderAvailable env)

/-- The hardcoded default model the fallback branch writes into its copied
config for each provider. -/
def fallbackModel : AIProvider → String
  | .GROQ => "llama-3.3-70b-versatile"
  | .GEMINI => "gemini-2.5-flash"

/-- Result of one `streamMessageWithFallback` run: the tagged chunks
yielded (across all attempted providers, in order), the terminal error if
any, the providers invoked with the model string each was given, and the
caller's `config` binding as it stands after the call (the source reads
`config` and copies it with `{ ...config }` but never writes to it or its
fields; the copy's `model` is what gets rewritten). -/
structure FallbackResult where
  yielded : List TaggedChunk
  error : Option String
  invoked : List (AIProvider × String)
  callerConfig : ModelConfig
deriving Repr, DecidableEq

/-- The `for (const provider of availableProviders)` fallback loop: skip
the primary (already tried), build `fallbackConfig = { ...config }` with
`model` rewritten to the provider's default, stream through it tagging
chunks, return on completion, continue on error; when candidates run out,
throw `"All AI providers failed. Please check your API keys."`. -/
def fallbackLoop (streams : AIProvider → Message → List Message → ModelConfig → ProviderOutcome)
    (lastMessage : Message) (history : List Message) (config : ModelConfig)
    (primaryProvider : AIProvider) : List AIProvider → FallbackResult
  | [] =>
      { yielded := [], error := some "All AI providers failed. Please check your API keys.",
        invoked := [], callerConfig := config }
  | p :: rest =>
      if p = primaryProvider then
        fallbackLoop streams lastMessage history config primaryProvider rest
      else
        let fallbackConfig := { config with model := fallbackModel p }
        let o := streams p lastMessage history fallbackConfig
        let tagged := o.yielded.map (fun c => { chunk := c, provider := some p : TaggedChunk })
        match o.error with
        | none =>
            { yielded := tagged, error := none,
              invoked := [(p, fallbackConfig.model)], callerConfig := config }
        | some _ =>
            let r := fallbackLoop streams lastMessage history config primaryProvider rest
            { yielded := tagged ++ r.yielded, error := r.error,
              invoked := (p, fallbackConfig.model) :: r.invoked, callerConfig := r.callerConfig }

/-- Orchestrator `AIProviderFactory.streamMessageWithFallback`: pick the primary from
`config.provider` (defaulting to Gemini), try it first when available —
forwarding its chunks tagged with the primary as they arrive — and on a
raised error fall through to the fallback loop over `availableProviders`.
`streams p last hist cfg` abstracts `getProvider(p).streamMessage(last,
hist, cfg)` as the observable outcome of that generator run. -/
def streamMessageWithFallback
    (streams : AIProvider → Message → List Message → ModelConfig → ProviderOutcome)
    (env : Env) (lastMessage : Message) (history : List Message) (config : ModelConfig) :
    FallbackResult :=
  let primaryProvider := config.provider.getD AIProvider.GEMINI
  let availableProviders := getAvailableProviders env
  if availableProviders.contains primaryProvider then
    let o := streams primaryProvider lastMessage history config
    let tagged := o.yielded.map (fun c => { chunk := c, provider := some primaryProvider : TaggedChunk })
    match o.error with
    | none =>
        { yielded := tagged, error := none,
          invoked := [(primaryProvider, config.model)], callerConfig := config }
    | some _ =>
        let r := fallbackLoop streams lastMessage history config primaryProvider availableProviders
        { yielded := tagged ++ r.yielded, error := r.error,
          invoked := (primaryProvider, config.model) :: r.invoked, callerConfig := r.callerConfig }
  else
    fallbackLoop streams lastMessage history config primaryProvider availableProviders

/-- The one provider that is not `p`, i.e. the single fallback candidate
the loop can reach when `p` is primary. -/
def otherProvider : AIProvider → AIProvider
  | .GEMINI => .GROQ
  | .GROQ => .GEMINI

/-! ## Theorems -/

/-- The fallback loop never writes to the caller's `config`: every branch
passes it through unchanged (the model rewrite targets the
`{ ...config }` copy). -/
theorem fallbackLoop_preserves_config
    (streams : AIProvider → Message → List Message → ModelConfig → ProviderOutcome)
    (lastMessage : Message) (history : List Message) (config : ModelConfig)
    (primary : AIProvider) :
    ∀ ps : List AIProvider,
      (fallbackLoop streams lastMessage history config primary ps).callerConfig = config := by
  intro ps
  induction ps with
  | nil => rfl
  | cons p rest ih =>
      by_cases h : p = primary
      · simpa [fallbackLoop, h] using ih
      · simp only [fallbackLoop, if_neg h]
        split
        · rfl
        · simpa using ih

/-- C10: `streamMessageWithFallback` never mutates the caller's config
object: the per-provider default-model rewrite during fallback is applied
to a shallow copy, so after the call returns (by completion or by
raising) the caller's `config`, every field included, equals its value at
entry. -/
theorem c10_config_not_mutated
    (streams : AIProvider → Message → List Message → ModelConfig → ProviderOutcome)
    (env : Env) (lastMessage : Message) (history : List Message) (config : ModelConfig) :
    (streamMessageWithFallback streams env lastMessage history config).callerConfig = config := by
  dsimp only [streamMessageWithFallback]
  split
  · split
    · rfl
    · simp [fallbackLoop_preserves_config]
  · exact fallbackLoop_preserves_config ..

/-- C9: with no provider credential configured the available-provider list
is empty, and `streamMessageWithFallback` raises the configuration error
`"All AI providers failed. Please check your API keys."` immediately:
no chunks, and no provider adapter is ever invoked. -/
theorem c9_empty_availability_fails_fast
    (streams : AIProvider → Message → List Message → ModelConfig → ProviderOutcome)
    (lastMessage : Message) (history : List Message) (config : ModelConfig) :
    streamMessageWithFallback streams ⟨false, false⟩ lastMessage history config =
      { yielded := [], error := some "All AI providers failed. Please check your API keys.",
        invoked := [], callerConfig := config } := by
  have hav : getAvailableProviders ⟨false, false⟩ = [] := rfl
  unfold streamMessageWithFallback
  rw [hav]
  simp [fallbackLoop]

/-- C6: for every history of length `L ≥ 1`, each adapter's payload
carries as conversation turns exactly the first `L - 1` history entries
followed by `lastMessage` as the newest turn (the system instruction
aside): the Groq and OpenRouter transcripts have exactly `L` turns ending
in the current user message, and the Gemini chat is created from the
first `L - 1` history entries with `lastMessage` sent as the new turn. -/
theorem c6_history_exclusion (lastMessage : Message) (history : List Message)
    (hL : 1 ≤ history.length) :
    groqMessages lastMessage history =
      ((history.take (history.length - 1)).map (fun msg =>
        ({ role := if msg.role = Role.model then "assistant" else "user",
           content := msg.content } : ChatCompletionMessage)))
      ++ [{ role := "user", content := lastMessage.content }]
    ∧ (groqMessages lastMessage history).length = history.length
    ∧ openRouterMessages lastMessage history =
        ((history.take (history.length - 1)).map (fun msg =>
          ({ role := if msg.role = Role.model then "assistant" else "user",
             content := msg.content } : ChatCompletionMessage)))
        ++ [{ role := "user", content := lastMessage.content }]
    ∧ (openRouterMessages lastMessage history).length = history.length
    ∧ geminiValidHistory history =
        (history.take (history.length - 1)).map (fun msg =>
          { role := msg.role, parts := geminiMsgParts msg })
    ∧ (geminiValidHistory history).length = history.length - 1
    ∧ (lastMessage.attachment = none →
        geminiMessagePayload lastMessage = .textOnly lastMessage.content) := by
  refine ⟨?_, ?_, ?_, ?_, ?_, ?_, ?_⟩
  · rw [groqMessages, List.dropLast_eq_take]
  · simp [groqMessages]; omega
  · rw [openRouterMessages, List.dropLast_eq_take]
  · simp [openRouterMessages]; omega
  · rw [geminiValidHistory, List.dropLast_eq_take]
  · simp [geminiValidHistory]
  · intro h
    simp [geminiMessagePayload, geminiMsgParts, h, GeminiPart.textD]

/-- C6 witness: a two-entry history submits exactly its first entry plus
the current message. -/
theorem c6_history_exclusion_witness :
    1 ≤ ([⟨Role.user, "a", none⟩, ⟨Role.user, "b", none⟩] : List Message).length
    ∧ groqMessages ⟨Role.user, "b", none⟩ [⟨Role.user, "a", none⟩, ⟨Role.user, "b", none⟩]
        = [{ role := "user", content := "a" }, { role := "user", content := "b" }] := by
  have h := c6_history_exclusion ⟨Role.user, "b", none⟩
    [⟨Role.user, "a", none⟩, ⟨Role.user, "b", none⟩] (by decide)
  exact ⟨by decide, by rw [h.1]; decide⟩

/-- The retry loop makes at most `retryCount + fuel` invocations in total. -/
theorem streamRetryLoop_count_le {α : Type} (attempt : Nat → Except String (List α)) :
    ∀ (fuel retryCount : Nat), (streamRetryLoop attempt retryCount fuel).2 ≤ retryCount + fuel := by
  intro fuel
  induction fuel with
  | zero => intro k; simp [streamRetryLoop]
  | succ n ih =>
      intro k
      rw [streamRetryLoop]
      cases attempt k with
      | ok chunks => simp
      | error msg =>
          by_cases h : isRateLimitError msg = true ∧ k < MAX_RETRIES - 1
          · simpa [h] using le_trans (ih (k + 1)) (by omega)
          · simp [h]

/-- C1 counterexample: with an underlying call that always raises the
rate-limit error `"429"`, `streamMessage` makes exactly 3 invocations but
then re-throws the propagated rate-limit error itself — not the dedicated
exhausted-retries failure the claim (and spec §4.3 step 3) describes,
which is unreachable. -/
theorem c1_counterexample :
    streamMessageRetry (α := StreamChunk) (fun _ => Except.error "429")
      = (RetryResult.propagated "429", 3)
    ∧ (streamMessageRetry (α := StreamChunk) (fun _ => Except.error "429")).1
        ≠ RetryResult.exhaustedRetries := by
  exact ⟨by decide, by decide⟩

/-- C1 amended: if every invocation of the underlying call raises a
rate-limit-classified error, `streamMessage` invokes it exactly
`MAX_RETRIES = 3` times and then propagates the third rate-limit error
itself (the dedicated exhausted-retries failure is unreachable); a
non-rate-limit error on the first invocation propagates immediately after
exactly one invocation; and no run ever makes more than `MAX_RETRIES`
invocations. -/
theorem c1_retry_policy (attempt : Nat → Except String (List StreamChunk)) :
    ((∀ k, ∃ m, attempt k = Except.error m ∧ isRateLimitError m = true) →
      ∃ m, attempt 2 = Except.error m ∧ isRateLimitError m = true ∧
        streamMessageRetry attempt = (RetryResult.propagated m, 3))
    ∧ (∀ m, attempt 0 = Except.error m → isRateLimitError m = false →
        streamMessageRetry attempt = (RetryResult.propagated m, 1))
    ∧ (streamMessageRetry attempt).2 ≤ MAX_RETRIES := by
  refine ⟨?_, ?_, ?_⟩
  · intro h
    obtain ⟨m0, h0, r0⟩ := h 0
    obtain ⟨m1, h1, r1⟩ := h 1
    obtain ⟨m2, h2, r2⟩ := h 2
    refine ⟨m2, h2, r2, ?_⟩
    show streamRetryLoop attempt 0 3 = (RetryResult.propagated m2, 3)
    rw [streamRetryLoop, h0]
    dsimp only
    rw [if_pos ⟨r0, by decide⟩]
    rw [streamRetryLoop, h1]
    dsimp only
    rw [if_pos ⟨r1, by decide⟩]
    rw [streamRetryLoop, h2]
    dsimp only
    rw [if_neg (fun hc => absurd hc.2 (by decide))]
  · intro m hm hnot
    show streamRetryLoop attempt 0 3 = (RetryResult.propagated m, 1)
    rw [streamRetryLoop, hm]
    dsimp only
    rw [if_neg (fun hc => by rw [hnot] at hc; exact Bool.false_ne_true hc.1)]
  · simpa using streamRetryLoop_count_le attempt MAX_RETRIES 0

/-- C1 amended witness: an always-`"429"` adapter yields three invocations
and the propagated `"429"`; an adapter failing with `"boom"` yields one
invocation and immediate propagation. -/
theorem c1_retry_policy_witness :
    streamMessageRetry (α := StreamChunk) (fun _ => Except.error "429")
      = (RetryResult.propagated "429", 3)
    ∧ streamMessageRetry (α := StreamChunk) (fun _ => Except.error "boom")
      = (RetryResult.propagated "boom", 1) := by
  constructor
  · obtain ⟨m, hm, -, hres⟩ :=
      (c1_retry_policy (fun _ => Except.error "429")).1
        (fun k => ⟨"429", rfl, by decide⟩)
    have hm' : m = "429" := by simpa using hm.symm
    rw [hm'] at hres
    exact hres
  · exact (c1_retry_policy (fun _ => Except.error "boom")).2.1 "boom" rfl (by decide)

/-- C8 counterexample: a last message carrying a binary attachment
produces exactly the same Groq and OpenRouter wire payloads as the same
message without the attachment — those adapters never read `attachment`,
so no inline multimodal part is included, refuting the claim for "every
adapter". -/
theorem c8_counterexample :
    groqWireMessages
        ⟨Role.user, "describe this image", some ⟨"image/png", "QUJDRA=="⟩⟩
        [⟨Role.user, "describe this image", some ⟨"image/png", "QUJDRA=="⟩⟩]
        ⟨none, "llama-3.3-70b-versatile", 1, 40, 1, 0, false, ""⟩
      = groqWireMessages
          ⟨Role.user, "describe this image", none⟩
          [⟨Role.user, "describe this image", none⟩]
          ⟨none, "llama-3.3-70b-versatile", 1, 40, 1, 0, false, ""⟩
    ∧ openRouterWireMessages
        ⟨Role.user, "describe this image", some ⟨"image/png", "QUJDRA=="⟩⟩
        [⟨Role.user, "describe this image", some ⟨"image/png", "QUJDRA=="⟩⟩]
        ⟨none, "deepseek/deepseek-chat", 1, 40, 1, 0, false, ""⟩
      = openRouterWireMessages
          ⟨Role.user, "describe this image", none⟩
          [⟨Role.user, "describe this image", none⟩]
          ⟨none, "deepseek/deepseek-chat", 1, 40, 1, 0, false, ""⟩ := by
  exact ⟨rfl, rfl⟩

/-- C8 amended: only the Gemini adapter includes a binary attachment of
`lastMessage` as an inline multimodal part alongside the text (its parts
array becomes text plus `inlineData`, and the whole array is sent);
the Groq and OpenRouter adapters ignore attachments — their wire payload
is unchanged when the attachment is removed. -/
theorem c8_attachment_handling (lastMessage : Message) (history : List Message)
    (config : ModelConfig) (a : Attachment) (h : lastMessage.attachment = some a) :
    geminiMsgParts lastMessage
      = [GeminiPart.text lastMessage.content, GeminiPart.inlineData a.mimeType a.data]
    ∧ geminiMessagePayload lastMessage
      = .multiPart [GeminiPart.text lastMessage.content, GeminiPart.inlineData a.mimeType a.data]
    ∧ groqWireMessages lastMessage history config
      = groqWireMessages { lastMessage with attachment := none } history config
    ∧ openRouterWireMessages lastMessage history config
      = openRouterWireMessages { lastMessage with attachment := none } history config := by
  have h1 : geminiMsgParts lastMessage
      = [GeminiPart.text lastMessage.content, GeminiPart.inlineData a.mimeType a.data] := by
    simp [geminiMsgParts, h]
  exact ⟨h1, by simp [geminiMessagePayload, h1], rfl, rfl⟩

/-- C8 amended witness: concrete message with a PNG attachment. -/
theorem c8_attachment_handling_witness :
    geminiMsgParts ⟨Role.user, "look", some ⟨"image/png", "QUJD"⟩⟩
      = [GeminiPart.text "look", GeminiPart.inlineData "image/png" "QUJD"] := by
  exact (c8_attachment_handling ⟨Role.user, "look", some ⟨"image/png", "QUJD"⟩⟩ []
    ⟨none, "gemini-2.5-flash", 1, 40, 1, 0, false, ""⟩ ⟨"image/png", "QUJD"⟩ rfl).1

/-- C4 counterexample: on a single-key pool, immediately after
`markKeyFailed(k)` and well inside the 60-second cooldown window,
`getNextKey()` returns `k` anyway — the last-resort fallback returns the
starting key when every candidate is skipped. -/
theorem c4_counterexample :
    (1001 : Int) - (1000 : Int) < (ApiKeyRotation.COOLDOWN_MS : Int)
    ∧ (((ApiKeyRotation.mkOfList ["k1"]).markKeyFailed "k1" 1000).getNextKey 1001).1 = "k1" := by
  exact ⟨by decide, by decide⟩

/-- C2 counterexample: a single-key pool whose key has reached
`MAX_FAILURES = 3` failures is selected again by `getNextKey()` once the
cooldown window has expired, with no `resetKey` call — the scan itself
resets the slot on cooldown expiry, so quarantine does not survive the
cooldown. -/
theorem c2_counterexample :
    (((((ApiKeyRotation.mkOfList ["k1"]).markKeyFailed "k1" 1000).markKeyFailed "k1"
          1000).markKeyFailed "k1" 1000).statuses.getD 0 default).failureCount
      = ApiKeyRotation.MAX_FAILURES
    ∧ (((((ApiKeyRotation.mkOfList ["k1"]).markKeyFailed "k1" 1000).markKeyFailed "k1"
          1000).markKeyFailed "k1" 1000).getNextKey 61001).1 = "k1" := by
  exact ⟨by decide, by decide⟩

/-- C7 counterexample: four consecutive `markKeyFailed` calls on the same
key drive its `failureCount` to 4, strictly above `MAX_FAILURES = 3` —
nothing in the source caps the counter. -/
theorem c7_counterexample :
    ((((((ApiKeyRotation.mkOfList ["k1"]).markKeyFailed "k1" 10).markKeyFailed "k1"
          20).markKeyFailed "k1" 30).markKeyFailed "k1" 40).statuses.getD 0 default).failureCount
      = ApiKeyRotation.MAX_FAILURES + 1 := by
  decide

/-- C3: with both providers configured, a configured primary whose stream
raises and the remaining provider completing, `streamMessageWithFallback`
yields the successful provider's chunks each tagged with that provider,
invokes it with its default model identifier in place of `config.model`,
and invokes no provider after the successful one: the invocation log is
exactly primary-then-fallback. -/
theorem c3_fallback_cascade
    (streams : AIProvider → Message → List Message → ModelConfig → ProviderOutcome)
    (lastMessage : Message) (history : List Message) (config : ModelConfig)
    (p : AIProvider) (chunksA chunksB : List StreamChunk) (e : String)
    (hp : config.provider = some p)
    (hA : streams p lastMessage history config = ⟨chunksA, some e⟩)
    (hB : streams (otherProvider p) lastMessage history
            { config with model := fallbackModel (otherProvider p) } = ⟨chunksB, none⟩) :
    streamMessageWithFallback streams ⟨true, true⟩ lastMessage history config =
      { yielded := chunksA.map (fun c => ⟨c, some p⟩)
                    ++ chunksB.map (fun c => ⟨c, some (otherProvider p)⟩),
        error := none,
        invoked := [(p, config.model), (otherProvider p, fallbackModel (otherProvider p))],
        callerConfig := config } := by
  cases p <;>
    simp_all [streamMessageWithFallback, getAvailableProviders, providerOrder,
      isProviderAvailable, fallbackLoop, otherProvider, fallbackModel]

/-- C3 witness: Gemini primary fails with `"boom"`, Groq serves one chunk
under its default model; the chunk comes out tagged Groq. -/
theorem c3_fallback_cascade_witness :
    streamMessageWithFallback
      (fun p _ _ _ =>
        if p = AIProvider.GEMINI then ⟨[], some "boom"⟩ else ⟨[⟨"hello", none⟩], none⟩)
      ⟨true, true⟩ ⟨Role.user, "hi", none⟩ [⟨Role.user, "hi", none⟩]
      ⟨some AIProvider.GEMINI, "gemini-2.5-pro", 1, 40, 1, 0, false, ""⟩
    = { yielded := [⟨⟨"hello", none⟩, some AIProvider.GROQ⟩], error := none,
        invoked := [(AIProvider.GEMINI, "gemini-2.5-pro"),
                    (AIProvider.GROQ, "llama-3.3-70b-versatile")],
        callerConfig := ⟨some AIProvider.GEMINI, "gemini-2.5-pro", 1, 40, 1, 0, false, ""⟩ } := by
  have h := c3_fallback_cascade
    (fun p _ _ _ =>
      if p = AIProvider.GEMINI then ⟨[], some "boom"⟩ else ⟨[⟨"hello", none⟩], none⟩)
    ⟨Role.user, "hi", none⟩ [⟨Role.user, "hi", none⟩]
    ⟨some AIProvider.GEMINI, "gemini-2.5-pro", 1, 40, 1, 0, false, ""⟩
    AIProvider.GEMINI [] [⟨"hello", none⟩] "boom" rfl rfl rfl
  simpa [otherProvider, fallbackModel] using h

/-- On a pool state whose statuses are all clean (no failure timestamp,
count below the quarantine bound), `getNextKey` selects the key under the
cursor and advances the cursor round-robin, leaving statuses untouched. -/
theorem getNextKey_clean_step (keys : List String) (c : Nat) (statuses : List KeyStatus)
    (now : Nat) (hk : keys ≠ [])
    (hclean : ∀ s ∈ statuses,
      s.failedAt = none ∧ s.failureCount < ApiKeyRotation.MAX_FAILURES) :
    ApiKeyRotation.getNextKey ⟨keys, c, statuses⟩ now =
      (keys.getD c "", ⟨keys, (c + 1) % keys.length, statuses⟩) := by
  have hst : (statuses.getD c default).failedAt = none
      ∧ (statuses.getD c default).failureCount < ApiKeyRotation.MAX_FAILURES := by
    by_cases hc : c < statuses.length
    · exact hclean _ (by rw [List.getD_eq_getElem statuses default hc]; exact List.getElem_mem hc)
    · rw [List.getD_eq_default statuses default (by omega)]
      exact ⟨rfl, by decide⟩
  obtain ⟨n, hn⟩ : ∃ n, keys.length = n + 1 := by
    cases keys with
    | nil => exact absurd rfl hk
    | cons a l => exact ⟨l.length, rfl⟩
  rw [ApiKeyRotation.getNextKey]
  dsimp only
  rw [hn, ApiKeyRotation.getNextKeyLoop]
  dsimp only
  rw [hst.1]
  dsimp only [ApiKeyRotation.truthyTime]
  rw [if_neg (by simp), if_neg (by omega), ← hn]

/-- Iterating `getNextKey` over an all-clean pool walks the key list
round-robin from the cursor, one key per call, without touching any
status. -/
theorem runGetNextKeys_clean (keys : List String) (statuses : List KeyStatus)
    (hk : keys ≠ [])
    (hclean : ∀ s ∈ statuses,
      s.failedAt = none ∧ s.failureCount < ApiKeyRotation.MAX_FAILURES) :
    ∀ (times : List Nat) (c : Nat), c < keys.length →
      ApiKeyRotation.runGetNextKeys times ⟨keys, c, statuses⟩ =
        (List.range times.length).map (fun j => keys.getD ((c + j) % keys.length) "") := by
  intro times
  induction times with
  | nil => intro c _; rfl
  | cons now rest ih =>
      intro c hc
      have hN : 0 < keys.length := by omega
      rw [ApiKeyRotation.runGetNextKeys]
      rw [getNextKey_clean_step keys c statuses now hk hclean]
      dsimp only
      rw [ih ((c + 1) % keys.length) (Nat.mod_lt _ hN)]
      rw [List.length_cons, List.range_succ_eq_map, List.map_cons, List.map_map]
      congr 1
      · rw [Nat.add_zero, Nat.mod_eq_of_lt hc]
      · apply List.map_congr_left
        intro j _
        simp only [Function.comp_apply]
        show keys.getD (((c + 1) % keys.length + j) % keys.length) ""
            = keys.getD ((c + Nat.succ j) % keys.length) ""
        rw [Nat.mod_add_mod]
        have h2 : c + 1 + j = c + Nat.succ j := by omega
        rw [h2]

/-- C5: on a freshly constructed pool of `N` keys with no failures
marked, `N` consecutive `getNextKey()` calls (at arbitrary clock values)
return each of the `N` keys exactly once, in the fixed cyclic order
starting at the cursor — which a fresh pool places at index 0, so the
calls return exactly the key list in order. -/
theorem c5_round_robin_fairness (apiKeys : List String) (times : List Nat)
    (hk : apiKeys ≠ []) (ht : times.length = apiKeys.length) :
    ApiKeyRotation.runGetNextKeys times (ApiKeyRotation.mkOfList apiKeys) = apiKeys := by
  have hmk : ApiKeyRotation.mkOfList apiKeys =
      ⟨apiKeys, 0, ApiKeyRotation.initStatuses apiKeys⟩ := by
    rw [ApiKeyRotation.mkOfList]
    simp [hk]
  have hclean : ∀ s ∈ ApiKeyRotation.initStatuses apiKeys,
      s.failedAt = none ∧ s.failureCount < ApiKeyRotation.MAX_FAILURES := by
    intro s hs
    rw [ApiKeyRotation.initStatuses] at hs
    obtain ⟨i, _, rfl⟩ := List.mem_map.mp hs
    exact ⟨rfl, by simp [ApiKeyRotation.MAX_FAILURES]⟩
  rw [hmk, runGetNextKeys_clean apiKeys _ hk hclean times 0 (by
    cases apiKeys with
    | nil => exact absurd rfl hk
    | cons a l => simp)]
  rw [ht]
  apply List.ext_getElem (by simp)
  intro i h1 h2
  have hi : i < apiKeys.length := by simpa using h1
  simp only [List.getElem_map, List.getElem_range]
  rw [Nat.zero_add, Nat.mod_eq_of_lt hi, List.getD_eq_getElem apiKeys "" hi]

/-- C5 witness: three keys, three calls, returned in order. -/
theorem c5_round_robin_fairness_witness :
    ApiKeyRotation.runGetNextKeys [5, 17, 99] (ApiKeyRotation.mkOfList ["a", "b", "c"])
      = ["a", "b", "c"] := by
  exact c5_round_robin_fairness ["a", "b", "c"] [5, 17, 99] (by decide) (by decide)

/-- Scan step, cooldown case: a truthy failure timestamp still inside the
cooldown window makes the loop skip the current slot and advance. -/
theorem getNextKeyLoop_skip_cooldown (now s fuel : Nat) (st : ApiKeyRotation)
    (h1 : ApiKeyRotation.truthyTime (st.statuses.getD st.currentIndex default).failedAt = true)
    (h2 : (now : Int) - ((st.statuses.getD st.currentIndex default).failedAt.getD 0 : Int)
            < (ApiKeyRotation.COOLDOWN_MS : Int)) :
    ApiKeyRotation.getNextKeyLoop now s (fuel + 1) st =
      ApiKeyRotation.getNextKeyLoop now s fuel
        { st with currentIndex := (st.currentIndex + 1) % st.keys.length } := by
  rw [ApiKeyRotation.getNextKeyLoop]
  dsimp only
  rw [h1, if_pos rfl, if_pos h2]

/-- Scan step, clean case: no truthy failure timestamp and a failure count
below the quarantine bound make the loop select the current key and
advance the cursor. -/
theorem getNextKeyLoop_select_clean (now s fuel : Nat) (st : ApiKeyRotation)
    (h1 : ApiKeyRotation.truthyTime (st.statuses.getD st.currentIndex default).failedAt = false)
    (h2 : (st.statuses.getD st.currentIndex default).failureCount
            < ApiKeyRotation.MAX_FAILURES) :
    ApiKeyRotation.getNextKeyLoop now s (fuel + 1) st =
      (st.keys.getD st.currentIndex "",
       { st with currentIndex := (st.currentIndex + 1) % st.keys.length }) := by
  rw [ApiKeyRotation.getNextKeyLoop]
  dsimp only
  rw [h1, if_neg (by simp), if_neg (by omega)]

/-- Scan step, expired-cooldown case: a truthy failure timestamp whose
cooldown has elapsed makes the loop reset the slot in place and — the
reset count being read back through the aliased status — select the very
key that just came out of cooldown. -/
theorem getNextKeyLoop_reset_select (now s fuel : Nat) (st : ApiKeyRotation)
    (h1 : ApiKeyRotation.truthyTime (st.statuses.getD st.currentIndex default).failedAt = true)
    (h2 : ¬ ((now : Int) - ((st.statuses.getD st.currentIndex default).failedAt.getD 0 : Int)
            < (ApiKeyRotation.COOLDOWN_MS : Int)))
    (h3 : ((st.resetKey st.currentIndex).statuses.getD st.currentIndex default).failureCount
            < ApiKeyRotation.MAX_FAILURES) :
    ApiKeyRotation.getNextKeyLoop now s (fuel + 1) st =
      ((st.resetKey st.currentIndex).keys.getD st.currentIndex "",
       { st.resetKey st.currentIndex with
          currentIndex := (st.currentIndex + 1) % st.keys.length }) := by
  rw [ApiKeyRotation.getNextKeyLoop]
  dsimp only
  rw [h1, if_pos rfl, if_neg h2, if_neg (by omega)]

/-- On the two-key pool with the first key inside its cooldown window and
the second key clean, `getNextKey` returns the second key from either
cursor position and leaves the cursor at 0 and the statuses untouched. -/
theorem getNextKey_two_key_cooldown (t c0 now : Nat) (ht0 : t ≠ 0)
    (hcool : (now : Int) - (t : Int) < (ApiKeyRotation.COOLDOWN_MS : Int)) :
    (ApiKeyRotation.getNextKey ⟨["k1", "k2"], 0, [⟨0, some t, c0⟩, ⟨1, none, 0⟩]⟩ now
      = ("k2", ⟨["k1", "k2"], 0, [⟨0, some t, c0⟩, ⟨1, none, 0⟩]⟩))
    ∧ (ApiKeyRotation.getNextKey ⟨["k1", "k2"], 1, [⟨0, some t, c0⟩, ⟨1, none, 0⟩]⟩ now
      = ("k2", ⟨["k1", "k2"], 0, [⟨0, some t, c0⟩, ⟨1, none, 0⟩]⟩)) := by
  have htr : ApiKeyRotation.truthyTime
      (([⟨0, some t, c0⟩, ⟨1, none, 0⟩] : List KeyStatus).getD 0 default).failedAt = true := by
    simp [ApiKeyRotation.truthyTime, ht0]
  constructor
  · show ApiKeyRotation.getNextKeyLoop now 0 (1 + 1)
        ⟨["k1", "k2"], 0, [⟨0, some t, c0⟩, ⟨1, none, 0⟩]⟩ = _
    rw [getNextKeyLoop_skip_cooldown now 0 1
        ⟨["k1", "k2"], 0, [⟨0, some t, c0⟩, ⟨1, none, 0⟩]⟩ htr (by simpa using hcool)]
    show ApiKeyRotation.getNextKeyLoop now 0 (0 + 1)
        ⟨["k1", "k2"], 1, [⟨0, some t, c0⟩, ⟨1, none, 0⟩]⟩ = _
    rw [getNextKeyLoop_select_clean now 0 0
        ⟨["k1", "k2"], 1, [⟨0, some t, c0⟩, ⟨1, none, 0⟩]⟩ rfl
        (by exact (by decide : (0 : Nat) < ApiKeyRotation.MAX_FAILURES))]
    simp
  · show ApiKeyRotation.getNextKeyLoop now 1 (1 + 1)
        ⟨["k1", "k2"], 1, [⟨0, some t, c0⟩, ⟨1, none, 0⟩]⟩ = _
    rw [getNextKeyLoop_select_clean now 1 1
        ⟨["k1", "k2"], 1, [⟨0, some t, c0⟩, ⟨1, none, 0⟩]⟩ rfl
        (by exact (by decide : (0 : Nat) < ApiKeyRotation.MAX_FAILURES))]
    simp

/-- C4 amended: after `markKeyFailed("k1")` on a two-key pool, every
`getNextKey()` call whose clock lies inside the 60-second cooldown window
returns `"k2"`, however many calls are made (the last-resort fallback of
the claim's counterexample needs every key to be unavailable). -/
theorem c4_cooldown_isolation (t : Nat) (times : List Nat) (ht0 : t ≠ 0)
    (hw : ∀ now ∈ times, (now : Int) - (t : Int) < (ApiKeyRotation.COOLDOWN_MS : Int)) :
    ApiKeyRotation.runGetNextKeys times
        ((ApiKeyRotation.mkOfList ["k1", "k2"]).markKeyFailed "k1" t)
      = times.map (fun _ => "k2") := by
  have hst : (ApiKeyRotation.mkOfList ["k1", "k2"]).markKeyFailed "k1" t
      = ⟨["k1", "k2"], 1, [⟨0, some t, 1⟩, ⟨1, none, 0⟩]⟩ := rfl
  rw [hst]
  have main : ∀ ts : List Nat,
      (∀ now ∈ ts, (now : Int) - (t : Int) < (ApiKeyRotation.COOLDOWN_MS : Int)) →
      ∀ ci, ci = 0 ∨ ci = 1 →
        ApiKeyRotation.runGetNextKeys ts ⟨["k1", "k2"], ci, [⟨0, some t, 1⟩, ⟨1, none, 0⟩]⟩
          = ts.map (fun _ => "k2") := by
    intro ts
    induction ts with
    | nil => intro _ ci _; rfl
    | cons now rest ih =>
        intro hcool ci hci
        have hnow := hcool now (List.mem_cons_self now rest)
        have hrest := fun m hm => hcool m (List.mem_cons_of_mem now hm)
        rw [ApiKeyRotation.runGetNextKeys]
        rcases hci with rfl | rfl
        · rw [(getNextKey_two_key_cooldown t 1 now ht0 hnow).1]
          dsimp only
          rw [ih hrest 0 (Or.inl rfl)]
          rfl
        · rw [(getNextKey_two_key_cooldown t 1 now ht0 hnow).2]
          dsimp only
          rw [ih hrest 0 (Or.inl rfl)]
          rfl
  exact main times hw 1 (Or.inr rfl)

/-- C4 amended witness: key 1 failed at `t = 1000`; three calls inside the
window all return `"k2"`. -/
theorem c4_cooldown_isolation_witness :
    ApiKeyRotation.runGetNextKeys [1500, 2000, 60999]
        ((ApiKeyRotation.mkOfList ["k1", "k2"]).markKeyFailed "k1" 1000)
      = ["k2", "k2", "k2"] := by
  exact c4_cooldown_isolation 1000 [1500, 2000, 60999] (by decide) (by decide)

/-- C2 amended: a key that has accumulated `MAX_FAILURES = 3` failures is
excluded from selection only while its cooldown window runs: in that
window `getNextKey` returns the other key, but as soon as
`COOLDOWN_MS` has elapsed since the failure timestamp, `getNextKey`
itself resets the slot (failure count back to 0) and selects the
quarantined key again — no `resetKey` call ever happens externally. -/
theorem c2_quarantine_until_cooldown_reset (t : Nat) (ht0 : t ≠ 0) :
    (((((ApiKeyRotation.mkOfList ["k1", "k2"]).markKeyFailed "k1" t).markKeyFailed "k1"
          t).markKeyFailed "k1" t).getNextKey t).2
      = ⟨["k1", "k2"], 0, [⟨0, some t, 3⟩, ⟨1, none, 0⟩]⟩
    ∧ (∀ now : Nat, (now : Int) - (t : Int) < (ApiKeyRotation.COOLDOWN_MS : Int) →
        (ApiKeyRotation.getNextKey ⟨["k1", "k2"], 0, [⟨0, some t, 3⟩, ⟨1, none, 0⟩]⟩ now).1
          = "k2")
    ∧ (∀ now : Nat, (ApiKeyRotation.COOLDOWN_MS : Int) ≤ (now : Int) - (t : Int) →
        ApiKeyRotation.getNextKey ⟨["k1", "k2"], 0, [⟨0, some t, 3⟩, ⟨1, none, 0⟩]⟩ now
          = ("k1", ⟨["k1", "k2"], 1, [⟨0, none, 0⟩, ⟨1, none, 0⟩]⟩)) := by
  have hst3 : (((ApiKeyRotation.mkOfList ["k1", "k2"]).markKeyFailed "k1" t).markKeyFailed "k1"
        t).markKeyFailed "k1" t
      = ⟨["k1", "k2"], 1, [⟨0, some t, 3⟩, ⟨1, none, 0⟩]⟩ := rfl
  refine ⟨?_, ?_, ?_⟩
  · rw [hst3]
    show (ApiKeyRotation.getNextKeyLoop t 1 (1 + 1)
        ⟨["k1", "k2"], 1, [⟨0, some t, 3⟩, ⟨1, none, 0⟩]⟩).2 = _
    rw [getNextKeyLoop_select_clean t 1 1
        ⟨["k1", "k2"], 1, [⟨0, some t, 3⟩, ⟨1, none, 0⟩]⟩ rfl
        (by exact (by decide : (0 : Nat) < ApiKeyRotation.MAX_FAILURES))]
    simp
  · intro now hcool
    rw [(getNextKey_two_key_cooldown t 3 now ht0 hcool).1]
  · intro now hge
    show ApiKeyRotation.getNextKeyLoop now 0 (1 + 1)
        ⟨["k1", "k2"], 0, [⟨0, some t, 3⟩, ⟨1, none, 0⟩]⟩ = _
    rw [getNextKeyLoop_reset_select now 0 1
        ⟨["k1", "k2"], 0, [⟨0, some t, 3⟩, ⟨1, none, 0⟩]⟩
        (by simp [ApiKeyRotation.truthyTime, ht0])
        (by simpa using not_lt.mpr hge)
        (by exact (by decide : (0 : Nat) < ApiKeyRotation.MAX_FAILURES))]
    simp [ApiKeyRotation.resetKey]

/-- C2 amended witness: failure timestamp 1000; at clock 2000 the pool
serves `"k2"`, at clock 61000 (window elapsed) it serves `"k1"` again
with the failure count back at 0. -/
theorem c2_quarantine_until_cooldown_reset_witness :
    (ApiKeyRotation.getNextKey
        ⟨["k1", "k2"], 0, [⟨0, some 1000, 3⟩, ⟨1, none, 0⟩]⟩ 2000).1 = "k2"
    ∧ ApiKeyRotation.getNextKey
        ⟨["k1", "k2"], 0, [⟨0, some 1000, 3⟩, ⟨1, none, 0⟩]⟩ 61000
      = ("k1", ⟨["k1", "k2"], 1, [⟨0, none, 0⟩, ⟨1, none, 0⟩]⟩) := by
  exact ⟨(c2_quarantine_until_cooldown_reset 1000 (by decide)).2.1 2000 (by decide),
         (c2_quarantine_until_cooldown_reset 1000 (by decide)).2.2 61000 (by decide)⟩

/-- A `resetKey` on a slot outside the status map is a no-op (the source's
`if (status)` guard). -/
theorem resetKey_oob (st : ApiKeyRotation) (i : Nat) (h : st.statuses.length ≤ i) :
    st.resetKey i = st := by
  rw [ApiKeyRotation.resetKey]
  rw [List.get?_eq_getElem?, List.getElem?_eq_none h]

/-- A `resetKey` clears the targeted in-range slot: failure timestamp gone,
count back to 0. -/
theorem resetKey_getD_self (st : ApiKeyRotation) (i : Nat) (h : i < st.statuses.length) :
    ((st.resetKey i).statuses.getD i default).failedAt = none
    ∧ ((st.resetKey i).statuses.getD i default).failureCount = 0 := by
  have hg : st.statuses.get? i = some st.statuses[i] := by
    rw [List.get?_eq_getElem?]; exact List.getElem?_eq_getElem h
  rw [ApiKeyRotation.resetKey, hg]
  dsimp only
  rw [List.getD_eq_getElem?_getD, List.getElem?_set_self (by simpa using h)]
  exact ⟨rfl, rfl⟩

/-- A `resetKey` leaves every other slot unchanged. -/
theorem resetKey_getD_ne (st : ApiKeyRotation) (i j : Nat) (hne : i ≠ j) :
    (st.resetKey i).statuses.getD j default = st.statuses.getD j default := by
  rw [ApiKeyRotation.resetKey]
  cases hq : st.statuses.get? i with
  | none => rfl
  | some s =>
      dsimp only
      rw [List.getD_eq_getElem?_getD, List.getElem?_set_ne hne, ← List.getD_eq_getElem?_getD]

/-- Across one whole `getNextKey` scan, each slot's `failureCount` is
either untouched or reset to 0, and a reset happens only for a slot that
held a truthy failure timestamp whose cooldown window had already elapsed
at the scan's clock value. -/
theorem getNextKeyLoop_failureCount (now s : Nat) :
    ∀ (fuel : Nat) (st : ApiKeyRotation) (i : Nat),
      (((ApiKeyRotation.getNextKeyLoop now s fuel st).2.statuses.getD i default).failureCount
          = (st.statuses.getD i default).failureCount)
      ∨ ((((ApiKeyRotation.getNextKeyLoop now s fuel st).2.statuses.getD i default).failureCount
            = 0)
          ∧ ∃ tp, (st.statuses.getD i default).failedAt = some tp ∧ tp ≠ 0
              ∧ (ApiKeyRotation.COOLDOWN_MS : Int) ≤ (now : Int) - (tp : Int)) := by
  intro fuel
  induction fuel with
  | zero => intro st i; exact Or.inl rfl
  | succ n ih =>
      intro st i
      rw [ApiKeyRotation.getNextKeyLoop]
      dsimp only
      by_cases h1 : ApiKeyRotation.truthyTime
          (st.statuses.getD st.currentIndex default).failedAt = true
      · rw [h1, if_pos rfl]
        by_cases h2 : (now : Int)
            - ((st.statuses.getD st.currentIndex default).failedAt.getD 0 : Int)
            < (ApiKeyRotation.COOLDOWN_MS : Int)
        · rw [if_pos h2]
          exact ih _ i
        · rw [if_neg h2]
          obtain ⟨tp, hfa, htp⟩ : ∃ tp,
              (st.statuses.getD st.currentIndex default).failedAt = some tp ∧ tp ≠ 0 := by
            cases hfa : (st.statuses.getD st.currentIndex default).failedAt with
            | none => rw [hfa] at h1; simp [ApiKeyRotation.truthyTime] at h1
            | some tp =>
                refine ⟨tp, rfl, ?_⟩
                rw [hfa] at h1
                simpa [ApiKeyRotation.truthyTime] using h1
          have hexp : (ApiKeyRotation.COOLDOWN_MS : Int) ≤ (now : Int) - (tp : Int) := by
            rw [hfa] at h2
            simpa using not_lt.mp h2
          by_cases hoob : st.statuses.length ≤ st.currentIndex
          · rw [resetKey_oob st st.currentIndex hoob]
            by_cases h3 : ApiKeyRotation.MAX_FAILURES
                ≤ (st.statuses.getD st.currentIndex default).failureCount
            · rw [if_pos h3]
              exact ih _ i
            · rw [if_neg h3]
              exact Or.inl rfl
          · push_neg at hoob
            by_cases hi : i = st.currentIndex
            · subst hi
              have hself := resetKey_getD_self st st.currentIndex hoob
              by_cases h3 : ApiKeyRotation.MAX_FAILURES
                  ≤ ((st.resetKey st.currentIndex).statuses.getD st.currentIndex
                      default).failureCount
              · rw [if_pos h3]
                rcases ih { st.resetKey st.currentIndex with
                    currentIndex := (st.currentIndex + 1) % st.keys.length }
                  st.currentIndex with h | h
                · refine Or.inr ⟨?_, tp, hfa, htp, hexp⟩
                  exact h.trans hself.2
                · obtain ⟨h0, tp', hfa', -, -⟩ := h
                  have hcontra : (some tp' : Option Nat) = none := hfa'.symm.trans hself.1
                  exact absurd hcontra (by simp)
              · rw [if_neg h3]
                dsimp only
                exact Or.inr ⟨hself.2, tp, hfa, htp, hexp⟩
            · have hne := resetKey_getD_ne st st.currentIndex i (fun he => hi he.symm)
              by_cases h3 : ApiKeyRotation.MAX_FAILURES
                  ≤ ((st.resetKey st.currentIndex).statuses.getD st.currentIndex
                      default).failureCount
              · rw [if_pos h3]
                rcases ih { st.resetKey st.currentIndex with
                    currentIndex := (st.currentIndex + 1) % st.keys.length } i with h | h
                · exact Or.inl (h.trans (congrArg KeyStatus.failureCount hne))
                · obtain ⟨h0, tp', hfa', htp', hexp'⟩ := h
                  refine Or.inr ⟨h0, tp', ?_, htp', hexp'⟩
                  exact hne ▸ hfa'
              · rw [if_neg h3]
                dsimp only
                exact Or.inl (congrArg KeyStatus.failureCount hne)
      · have h1' : ApiKeyRotation.truthyTime
            (st.statuses.getD st.currentIndex default).failedAt = false := by
          simpa using h1
        rw [h1', if_neg (by simp)]
        by_cases h3 : ApiKeyRotation.MAX_FAILURES
            ≤ (st.statuses.getD st.currentIndex default).failureCount
        · rw [if_pos h3]
          exact ih _ i
        · rw [if_neg h3]
          exact Or.inl rfl

/-- C7 amended: each key's `failureCount` is a non-negative integer whose
resets happen only through `getNextKey` observing an expired cooldown or
through an explicit `resetKey` call; `markKeyFailed` increments the
matched slot's count by exactly one and stamps the failure time, with no
upper bound — so the count is not capped at `MAX_FAILURES`. -/
theorem c7_failure_count_evolution (st : ApiKeyRotation) (key : String) (now i : Nat) :
    ((((st.getNextKey now).2.statuses.getD i default).failureCount
        = (st.statuses.getD i default).failureCount)
      ∨ ((((st.getNextKey now).2.statuses.getD i default).failureCount = 0)
          ∧ ∃ tp, (st.statuses.getD i default).failedAt = some tp ∧ tp ≠ 0
              ∧ (ApiKeyRotation.COOLDOWN_MS : Int) ≤ (now : Int) - (tp : Int)))
    ∧ (i < st.statuses.length →
        ((st.resetKey i).statuses.getD i default).failureCount = 0)
    ∧ (∀ idx, st.keys.findIdx? (fun k => k == key) = some idx →
        idx < st.statuses.length →
        ((st.markKeyFailed key now).statuses.getD idx default).failureCount
          = (st.statuses.getD idx default).failureCount + 1
        ∧ ((st.markKeyFailed key now).statuses.getD idx default).failedAt = some now) := by
  refine ⟨getNextKeyLoop_failureCount now st.currentIndex st.keys.length st i,
    fun h => (resetKey_getD_self st i h).2, ?_⟩
  intro idx hfind hlt
  rw [ApiKeyRotation.markKeyFailed, hfind]
  dsimp only
  split
  · dsimp only
    constructor <;>
      · rw [List.getD_eq_getElem?_getD, List.getElem?_set_self (by simpa using hlt)]
        rfl
  · dsimp only
    constructor <;>
      · rw [List.getD_eq_getElem?_getD, List.getElem?_set_self (by simpa using hlt)]
        rfl

/-- C7 amended witness: a second failure takes the count from 1 to 2, and
a `resetKey` takes it back to 0. -/
theorem c7_failure_count_evolution_witness :
    ((((ApiKeyRotation.mkOfList ["k1", "k2"]).markKeyFailed "k1" 1000).markKeyFailed "k1"
        2000).statuses.getD 0 default).failureCount = 2
    ∧ ((((ApiKeyRotation.mkOfList ["k1", "k2"]).markKeyFailed "k1" 1000).resetKey
        0).statuses.getD 0 default).failureCount = 0 := by
  have h := c7_failure_count_evolution
    ((ApiKeyRotation.mkOfList ["k1", "k2"]).markKeyFailed "k1" 1000) "k1" 2000 0
  refine ⟨?_, h.2.1 (by decide)⟩
  have h2 := (h.2.2 0 (by decide) (by decide)).1
  have h3 : ((((ApiKeyRotation.mkOfList ["k1", "k2"]).markKeyFailed "k1"
      1000).statuses.getD 0 default)).failureCount = 1 := by decide
  rw [h3] at h2
  exact h2

